import Mathlib

/-!
Verification of the Flyleaf dust-jacket designer's Layout & Proof Engine
(`src/app/designer/page.tsx`).  The source file contains two revisions of the
same React component; the geometry pipeline (stack geometry, artwork fit and
viewport model, proof compositor) is identical in both, revision B adds the
text-autofit engine.  Millimetre/pixel quantities are embedded as exact
rationals (`ℚ`); the stored font sizes of the autofit loop are integers (`ℤ`).
JavaScript's `Number(raw)` / `Number.isFinite` parsing of a text input is
modelled by an `Option ℚ` argument (`none` = non-finite parse result).
-/

namespace Flyleaf

/-- `MAX_BOOKS = 50`. -/
def MAX_BOOKS : ℕ := 50

/-- `BOOK_GAP_MM = 2`. -/
def BOOK_GAP_MM : ℚ := 2

/-- `WRAP_MARGIN_MM = WRAP_MARGIN_CM * 10 = 20`. -/
def WRAP_MARGIN_MM : ℚ := 2 * 10

/-- `TOTAL_WRAP_ALLOWANCE_MM = WRAP_MARGIN_MM * 2`. -/
def TOTAL_WRAP_ALLOWANCE_MM : ℚ := WRAP_MARGIN_MM * 2

/-- `TOP_MARGIN_MM = 2`. -/
def TOP_MARGIN_MM : ℚ := 2

/-- `MM_TO_PX = 3.7795275591` (96 DPI reference). -/
def MM_TO_PX : ℚ := 3.7795275591

/-- `INCH_TO_MM = 25.4`. -/
def INCH_TO_MM : ℚ := 25.4

/-- Revision A page width: `PAGE_WIDTH_IN = 8.5` inches, in millimetres. -/
def PAGE_WIDTH_MM_A : ℚ := 8.5 * INCH_TO_MM

/-- `mmToPx(value) = value * MM_TO_PX`. -/
def mmToPx (value : ℚ) : ℚ := value * MM_TO_PX

/-- One book row (`BookSettings`).  Revision A has `id`, `spineWidth`,
`coverWidth`, `height`, `color`; revision B adds `title` and `isbn`. -/
structure BookSettings where
  id : ℕ
  spineWidth : ℚ
  coverWidth : ℚ
  height : ℚ
  color : String
  title : String := ""
  isbn : String := ""
deriving DecidableEq, Repr

/-- The uploaded artwork (`ImageAsset`): native pixel dimensions. The `url`,
`name` and `mimeType` fields play no part in the geometry. -/
structure ImageAsset where
  width : ℚ
  height : ℚ
deriving DecidableEq, Repr

/-- `createBook()` returns a book with spine 30, cover 140, height 210 and the
default colour; the id comes from the module-level counter. -/
def createBook (nextId : ℕ) : BookSettings :=
  { id := nextId, spineWidth := 30, coverWidth := 140, height := 210, color := "#1d4ed8" }

/-- The numeric dimension fields handled by `updateBook`'s numeric branch. -/
inductive NumField where
  | spineWidth
  | coverWidth
  | height
deriving DecidableEq, Repr

/-- Read a numeric dimension field. -/
def getNumField (f : NumField) (b : BookSettings) : ℚ :=
  match f with
  | .spineWidth => b.spineWidth
  | .coverWidth => b.coverWidth
  | .height => b.height

/-- Write a numeric dimension field (`{ ...book, [field]: v }`). -/
def applyNumField (f : NumField) (v : ℚ) (b : BookSettings) : BookSettings :=
  match f with
  | .spineWidth => { b with spineWidth := v }
  | .coverWidth => { b with coverWidth := v }
  | .height => { b with height := v }

/-- `updateBook(id, field, rawValue)` for a numeric field: each book whose id
differs is returned as-is; on the target, `Number(rawValue)` failing the
`Number.isFinite` check (modelled as `none`) leaves the book unchanged,
otherwise the field is set to `Math.max(numeric, 0)`. -/
def updateBook (idv : ℕ) (f : NumField) (numeric : Option ℚ) (books : List BookSettings) :
    List BookSettings :=
  books.map fun book =>
    if book.id ≠ idv then book
    else
      match numeric with
      | none => book
      | some v => applyNumField f (max v 0) book

/-- The string-valued fields of `updateBook` (`color` in revision A; `color`,
`title`, `isbn` in revision B). -/
inductive StrField where
  | color
  | title
  | isbn
deriving DecidableEq, Repr

/-- `updateBook(id, field, rawValue)` for a string field: the raw value is
stored verbatim on the target book. -/
def updateBookStr (idv : ℕ) (f : StrField) (raw : String) (books : List BookSettings) :
    List BookSettings :=
  books.map fun book =>
    if book.id ≠ idv then book
    else
      match f with
      | .color => { book with color := raw }
      | .title => { book with title := raw }
      | .isbn => { book with isbn := raw }

/-- `addBook()`: rejected once the list already holds `MAX_BOOKS` books,
otherwise the freshly created book is appended. -/
def addBook (newBook : BookSettings) (books : List BookSettings) : List BookSettings :=
  if MAX_BOOKS ≤ books.length then books else books ++ [newBook]

/-- `removeBook(id)`: filters out the book with the given id, but only when
more than one book remains. -/
def removeBook (idv : ℕ) (books : List BookSettings) : List BookSettings :=
  if 1 < books.length then books.filter (fun book => book.id ≠ idv) else books

/-- `totalWidthMm`: 0 for an empty list, otherwise the spine widths summed
plus `BOOK_GAP_MM * Math.max(books.length - 1, 0)`. -/
def totalWidthMm (books : List BookSettings) : ℚ :=
  if books.isEmpty then 0
  else (books.map (fun b => b.spineWidth)).sum + BOOK_GAP_MM * max ((books.length : ℚ) - 1) 0

/-- `maxHeightMm = books.reduce((max, book) => Math.max(max, book.height), 0)`. -/
def maxHeightMm (books : List BookSettings) : ℚ :=
  books.foldl (fun acc b => max acc b.height) 0

/-- The designer's reactive state feeding the geometry pipeline. -/
structure DesignerState where
  books : List BookSettings
  image : Option ImageAsset
  zoom : ℚ
  offsetX : ℚ
  offsetY : ℚ

/-- `totalWidthPx = Math.max(mmToPx(totalWidthMm), 1)`. -/
def totalWidthPx (s : DesignerState) : ℚ := max (mmToPx (totalWidthMm s.books)) 1

/-- `maxHeightPx = Math.max(mmToPx(maxHeightMm), 1)`. -/
def maxHeightPx (s : DesignerState) : ℚ := max (mmToPx (maxHeightMm s.books)) 1

/-- `targetArtworkHeightPx = mmToPx(maxHeightMm)`. -/
def targetArtworkHeightPx (s : DesignerState) : ℚ := mmToPx (maxHeightMm s.books)

/-- `topMarginPx = mmToPx(TOP_MARGIN_MM)`. -/
def topMarginPx : ℚ := mmToPx TOP_MARGIN_MM

/-- `wrapMarginPx = mmToPx(WRAP_MARGIN_MM)`. -/
def wrapMarginPx : ℚ := mmToPx WRAP_MARGIN_MM

/-- `artworkBaseScale`: 1 without artwork, with a falsy pixel dimension, or
with a non-positive target height; otherwise `targetArtworkHeightPx / image.height`. -/
def artworkBaseScale (s : DesignerState) : ℚ :=
  match s.image with
  | none => 1
  | some img =>
      if img.width = 0 ∨ img.height = 0 then 1
      else if targetArtworkHeightPx s ≤ 0 then 1
      else targetArtworkHeightPx s / img.height

/-- `baseArtworkHeightPx`: `maxHeightPx` without artwork, otherwise
`image.height * artworkBaseScale`. -/
def baseArtworkHeightPx (s : DesignerState) : ℚ :=
  match s.image with
  | none => maxHeightPx s
  | some img => img.height * artworkBaseScale s

/-- `baseArtworkWidthPx`: `totalWidthPx` without artwork, otherwise
`image.width * artworkBaseScale`. -/
def baseArtworkWidthPx (s : DesignerState) : ℚ :=
  match s.image with
  | none => totalWidthPx s
  | some img => img.width * artworkBaseScale s

/-- `minimumArtworkWidthPx = mmToPx(totalWidthMm + TOTAL_WRAP_ALLOWANCE_MM)`. -/
def minimumArtworkWidthPx (s : DesignerState) : ℚ :=
  mmToPx (totalWidthMm s.books + TOTAL_WRAP_ALLOWANCE_MM)

/-- `minimumArtworkHeightPx = mmToPx(maxHeightMm + TOP_MARGIN_MM)`. -/
def minimumArtworkHeightPx (s : DesignerState) : ℚ :=
  mmToPx (maxHeightMm s.books + TOP_MARGIN_MM)

/-- The unclamped required zoom scale
`minScale = Math.max(minScaleFromWidth, minScaleFromHeight)` of `minZoomPercent`. -/
def minZoomRequiredScale (s : DesignerState) : ℚ :=
  max (minimumArtworkWidthPx s / baseArtworkWidthPx s)
    (if 0 < baseArtworkHeightPx s then minimumArtworkHeightPx s / baseArtworkHeightPx s else 0)

/-- `minZoomPercent`: 50 without artwork, with a zero base width, or with a
non-positive required scale; otherwise `Math.ceil(minScale * 100)` clamped by
`Math.min(Math.max(·, 50), 200)`. -/
def minZoomPercent (s : DesignerState) : ℚ :=
  match s.image with
  | none => 50
  | some _ =>
      if baseArtworkWidthPx s = 0 then 50
      else if minZoomRequiredScale s ≤ 0 then 50
      else ((min (max (⌈minZoomRequiredScale s * 100⌉) 50) 200 : ℤ) : ℚ)

/-- `zoomScale = zoom / 100`. -/
def zoomScale (s : DesignerState) : ℚ := s.zoom / 100

/-- `artworkDisplayWidth = baseArtworkWidthPx * zoomScale`. -/
def artworkDisplayWidth (s : DesignerState) : ℚ := baseArtworkWidthPx s * zoomScale s

/-- `artworkDisplayHeight = baseArtworkHeightPx * zoomScale`. -/
def artworkDisplayHeight (s : DesignerState) : ℚ := baseArtworkHeightPx s * zoomScale s

/-- `extraWidth = Math.max(artworkDisplayWidth - totalWidthPx, 0)`. -/
def extraWidth (s : DesignerState) : ℚ := max (artworkDisplayWidth s - totalWidthPx s) 0

/-- `extraHeight = Math.max(artworkDisplayHeight - maxHeightPx, 0)`. -/
def extraHeight (s : DesignerState) : ℚ := max (artworkDisplayHeight s - maxHeightPx s) 0

/-- `maxHorizontalShiftPx = Math.max(extraWidth / 2 - wrapMarginPx, 0)`. -/
def maxHorizontalShiftPx (s : DesignerState) : ℚ := max (extraWidth s / 2 - wrapMarginPx) 0

/-- `translateXPx = maxHorizontalShiftPx * (offsetX / 100)`. -/
def translateXPx (s : DesignerState) : ℚ := maxHorizontalShiftPx s * (s.offsetX / 100)

/-- The `minVerticalOffsetPercent` memo as a function of its inputs:
without artwork −100; `extraHeight ≤ 0` gives −100; `extraHeight ≤ topMarginPx`
gives 100; otherwise `Math.min(100, Math.max(-100, -100 + 200 * top / extra))`. -/
def minVerticalOffsetOf (hasImage : Bool) (extra top : ℚ) : ℚ :=
  if hasImage = false then -100
  else if extra ≤ 0 then -100
  else if extra ≤ top then 100
  else min 100 (max (-100) (-100 + 200 * top / extra))

/-- `minVerticalOffsetPercent` wired to the designer state. -/
def minVerticalOffsetPercent (s : DesignerState) : ℚ :=
  minVerticalOffsetOf s.image.isSome (extraHeight s) topMarginPx

/-- `constrainedOffsetY = Math.min(100, Math.max(minVerticalOffsetPercent, offsetY))`. -/
def constrainedOffsetY (s : DesignerState) : ℚ :=
  min 100 (max (minVerticalOffsetPercent s) s.offsetY)

/-- `translateYPx = -extraHeight * (constrainedOffsetY / 200)`. -/
def translateYPx (s : DesignerState) : ℚ := -(extraHeight s) * (constrainedOffsetY s / 200)

/-- The running-offset walk of `bookCentersMm`: each book's centre is
`running + spineWidth / 2`, then `running` advances by the spine width plus
the gap for every book but the last. -/
def centersMmAux (running : ℚ) : List BookSettings → List ℚ
  | [] => []
  | b :: rest =>
      (running + b.spineWidth / 2) ::
        centersMmAux (running + b.spineWidth + (if rest.isEmpty then 0 else BOOK_GAP_MM)) rest

/-- `bookCentersMm` starting at a running offset of 0. -/
def bookCentersMm (books : List BookSettings) : List ℚ := centersMmAux 0 books

/-- The same walk in pixels (`booksWithLayout` in revision B): centre is
`runningOffsetPx + spineWidthPx / 2` with `bookGapPx = mmToPx(BOOK_GAP_MM)`. -/
def centersPxAux (running : ℚ) : List BookSettings → List ℚ
  | [] => []
  | b :: rest =>
      (running + mmToPx b.spineWidth / 2) ::
        centersPxAux (running + mmToPx b.spineWidth + (if rest.isEmpty then 0 else mmToPx BOOK_GAP_MM)) rest

/-- `booksWithLayout`'s per-book `centerPx`, starting at 0. -/
def bookCentersPx (books : List BookSettings) : List ℚ := centersPxAux 0 books

/-- `artworkDisplayWidthMm = artworkDisplayWidth / MM_TO_PX`. -/
def artworkDisplayWidthMm (s : DesignerState) : ℚ := artworkDisplayWidth s / MM_TO_PX

/-- `imageLeftInPreviewMm = totalWidthMm / 2 - artworkDisplayWidthMm / 2 + translateXPx / MM_TO_PX`. -/
def imageLeftInPreviewMm (s : DesignerState) : ℚ :=
  totalWidthMm s.books / 2 - artworkDisplayWidthMm s / 2 + translateXPx s / MM_TO_PX

/-- The horizontal data of one proof page produced by the revision A `pdfPages`
memo (the vertical fields play no part in the claims below). -/
structure PdfPage where
  spineWidthMm : ℚ
  imageLeftMm : ℚ
deriving DecidableEq, Repr

/-- `pdfPages = books.map(...)`: one page per book, spine width clamped at 0,
`imageLeftMm = PAGE_WIDTH_MM / 2 - spineCenterMm + imageLeftInPreviewMm`. -/
def pdfPages (s : DesignerState) : List PdfPage :=
  (s.books.zip (bookCentersMm s.books)).map fun bc =>
    { spineWidthMm := max bc.1.spineWidth 0
      imageLeftMm := PAGE_WIDTH_MM_A / 2 - bc.2 + imageLeftInPreviewMm s }

/-- Revision B's per-book artwork placement on its proof page:
`artworkShiftXPx = translateXPx + centerShiftPx` with
`centerShiftPx = totalWidthPx / 2 - centerPx`. -/
def artworkShiftXPx (s : DesignerState) (centerPx : ℚ) : ℚ :=
  translateXPx s + (totalWidthPx s / 2 - centerPx)

/-- Inclusive clamp of `x` into `[lo, hi]`, as the specification writes it. -/
def clampQ (lo hi x : ℚ) : ℚ := max lo (min hi x)

/-- The specification's closed form for `minZoomPercent` (claim C2):
`ceil(100 * max((stackWpx + 2*wrapMarginPx) / baseW, (stackHpx + topMarginPx) / baseH))`
clamped into `[50, 200]`, with `baseH = stackHpx` and
`baseW = pixelWidth * (stackHpx / pixelHeight)`. -/
def minZoomPercentSpec (pixelW pixelH stackWpx stackHpx : ℚ) : ℚ :=
  ((min (max (⌈100 * max ((stackWpx + 2 * wrapMarginPx) / (pixelW * (stackHpx / pixelH)))
      ((stackHpx + topMarginPx) / stackHpx)⌉) 50) 200 : ℤ) : ℚ)

/-! ### Helper lemmas -/

lemma mmToPx_pos {x : ℚ} (hx : 0 < x) : 0 < mmToPx x := by
  have hk : (0 : ℚ) < MM_TO_PX := by norm_num [MM_TO_PX]
  exact mul_pos hx hk

lemma topMarginPx_pos : (0 : ℚ) < topMarginPx := by
  norm_num [topMarginPx, mmToPx, MM_TO_PX, TOP_MARGIN_MM]

lemma wrapMarginPx_pos : (0 : ℚ) < wrapMarginPx := by
  norm_num [wrapMarginPx, mmToPx, MM_TO_PX, WRAP_MARGIN_MM]

lemma minVerticalOffsetOf_le_100 (b : Bool) (e t : ℚ) : minVerticalOffsetOf b e t ≤ 100 := by
  unfold minVerticalOffsetOf
  split_ifs
  · norm_num
  · norm_num
  · norm_num
  · exact min_le_left _ _

lemma updateBook_map_id (idv : ℕ) (f : NumField) (raw : Option ℚ) (books : List BookSettings) :
    (updateBook idv f raw books).map (fun b => b.id) = books.map (fun b => b.id) := by
  induction books with
  | nil => rfl
  | cons b rest ih =>
      simp only [updateBook, List.map_cons] at ih ⊢
      refine congrArg₂ _ ?_ ih
      by_cases h : b.id = idv <;> cases raw <;> cases f <;> simp [h, applyNumField]

lemma updateBookStr_map_id (idv : ℕ) (g : StrField) (str : String) (books : List BookSettings) :
    (updateBookStr idv g str books).map (fun b => b.id) = books.map (fun b => b.id) := by
  induction books with
  | nil => rfl
  | cons b rest ih =>
      simp only [updateBookStr, List.map_cons] at ih ⊢
      refine congrArg₂ _ ?_ ih
      by_cases h : b.id = idv <;> cases g <;> simp [h]

lemma length_filter_ne_of_mem (books : List BookSettings) (idv : ℕ)
    (hnd : (books.map (fun b => b.id)).Nodup) (hm : idv ∈ books.map (fun b => b.id)) :
    (books.filter (fun b => b.id ≠ idv)).length + 1 = books.length := by
  induction books with
  | nil => simp at hm
  | cons b rest ih =>
      simp only [List.map_cons, List.nodup_cons] at hnd
      obtain ⟨hni, hnd2⟩ := hnd
      by_cases h : b.id = idv
      · have hrest : rest.filter (fun x => x.id ≠ idv) = rest := by
          refine List.filter_eq_self.mpr ?_
          intro x hx
          simp only [ne_eq, decide_eq_true_eq]
          intro hc
          refine hni ?_
          subst h
          exact (List.mem_map).mpr ⟨x, hx, hc⟩
        rw [List.filter_cons_of_neg (by simp [h]), hrest, List.length_cons]
      · have hm2 : idv ∈ rest.map (fun b => b.id) := by
          rcases List.mem_cons.mp hm with h1 | h1
          · exact absurd h1.symm h
          · exact h1
        rw [List.filter_cons_of_pos (by simp [h]), List.length_cons, List.length_cons]
        have := ih hnd2 hm2
        omega

lemma filter_ne_nodup_ids (books : List BookSettings) (idv : ℕ)
    (hnd : (books.map (fun b => b.id)).Nodup) :
    ((books.filter (fun b => b.id ≠ idv)).map (fun b => b.id)).Nodup := by
  exact hnd.sublist ((List.filter_sublist books).map (fun b => b.id))

/-! ### Claim C5 -/

/-- Claim C5 (confirmed): for a non-empty book list `totalWidthMm` is the sum
of the spine widths plus `BOOK_GAP_MM * (n - 1)` exactly; the empty list
yields 0; spine widths 30mm and 40mm with the 2mm gap yield 72mm. -/
theorem c5_total_width (books : List BookSettings) (h : books ≠ []) :
    totalWidthMm books =
      (books.map (fun b => b.spineWidth)).sum + BOOK_GAP_MM * ((books.length : ℚ) - 1) ∧
    totalWidthMm [] = 0 ∧
    totalWidthMm [createBook 1, { createBook 2 with spineWidth := 40 }] = 72 := by
  refine ⟨?_, by simp [totalWidthMm],
    by norm_num [totalWidthMm, createBook, BOOK_GAP_MM, max_eq_left]⟩
  have hne : books.isEmpty = false := by
    cases books with
    | nil => exact absurd rfl h
    | cons b rest => rfl
  have hlen : 1 ≤ books.length := by
    cases books with
    | nil => exact absurd rfl h
    | cons b rest => simp
  have hmax : max ((books.length : ℚ) - 1) 0 = (books.length : ℚ) - 1 := by
    refine max_eq_left ?_
    have : (1 : ℚ) ≤ (books.length : ℚ) := by exact_mod_cast hlen
    linarith
  simp [totalWidthMm, hne, hmax]

/-- Witness for C5 at the concrete two-book stack. -/
theorem c5_total_width_witness :
    totalWidthMm [createBook 1, { createBook 2 with spineWidth := 40 }] =
      ([createBook 1, { createBook 2 with spineWidth := 40 }].map (fun b => b.spineWidth)).sum +
        BOOK_GAP_MM * (([createBook 1, { createBook 2 with spineWidth := 40 }].length : ℚ) - 1) :=
  (c5_total_width [createBook 1, { createBook 2 with spineWidth := 40 }] (by simp)).1

/-! ### Claim C4 -/

/-- Claim C4 (counterexample): at `extraHeight = 0` (which satisfies
`extraHeight ≤ topMarginPx`) the code returns −100, not the 100 the claim
demands. -/
theorem c4_counterexample :
    minVerticalOffsetOf true 0 topMarginPx = -100 ∧
    (0 : ℚ) ≤ topMarginPx ∧ (-100 : ℚ) ≠ 100 := by
  refine ⟨by simp [minVerticalOffsetOf], le_of_lt topMarginPx_pos, by norm_num⟩

/-- Claim C4 (corrected): restricted to `extraHeight > 0`,
`minVerticalOffsetPercent` is monotonically non-decreasing as `extraHeight`
decreases, and equals exactly 100 when `0 < extraHeight ≤ topMarginPx`; at
`extraHeight = 0` it is pinned to −100 instead. -/
theorem c4_amended (top e1 e2 : ℚ) (htop : 0 < top) (h1 : 0 < e1) (h12 : e1 ≤ e2) :
    minVerticalOffsetOf true e2 top ≤ minVerticalOffsetOf true e1 top ∧
    (e1 ≤ top → minVerticalOffsetOf true e1 top = 100) ∧
    minVerticalOffsetOf true 0 top = -100 := by
  have h2 : 0 < e2 := lt_of_lt_of_le h1 h12
  refine ⟨?_, ?_, by simp [minVerticalOffsetOf]⟩
  · by_cases h2top : e2 ≤ top
    · have h1top : e1 ≤ top := le_trans h12 h2top
      simp [minVerticalOffsetOf, not_le.mpr h1, not_le.mpr h2, h1top, h2top]
    · by_cases h1top : e1 ≤ top
      · have h100 : minVerticalOffsetOf true e1 top = 100 := by
          simp [minVerticalOffsetOf, not_le.mpr h1, h1top]
        rw [h100]
        exact minVerticalOffsetOf_le_100 _ _ _
      · have hmono : -100 + 200 * top / e2 ≤ -100 + 200 * top / e1 := by
          have hdiv : 200 * top / e2 ≤ 200 * top / e1 := by
            gcongr
          linarith
        have hv1 : minVerticalOffsetOf true e1 top =
            min 100 (max (-100) (-100 + 200 * top / e1)) := by
          simp [minVerticalOffsetOf, not_le.mpr h1, h1top]
        have hv2 : minVerticalOffsetOf true e2 top =
            min 100 (max (-100) (-100 + 200 * top / e2)) := by
          simp [minVerticalOffsetOf, not_le.mpr h2, h2top]
        rw [hv1, hv2]
        exact min_le_min le_rfl (max_le_max le_rfl hmono)
  · intro h1top
    simp [minVerticalOffsetOf, not_le.mpr h1, h1top]

/-- Witness for C4 at `extraHeight` values 1 and 2 with the real top margin. -/
theorem c4_amended_witness :
    minVerticalOffsetOf true 2 topMarginPx ≤ minVerticalOffsetOf true 1 topMarginPx :=
  (c4_amended topMarginPx 1 2 topMarginPx_pos (by norm_num) (by norm_num)).1

lemma max_500_zero : max (500 : ℚ) 0 = 500 := max_eq_left (by norm_num)

/-! ### Claim C8 -/

/-- Claim C8 (counterexample): setting a book's height to 500mm — far above
the claimed 265mm physical maximum — is applied, not rejected: the stored
height changes from 210 to 500. -/
theorem c8_counterexample :
    updateBook 1 NumField.height (some 500) [createBook 1] =
      [{ createBook 1 with height := 500 }] ∧
    (createBook 1).height = 210 ∧ (265 : ℚ) < 500 := by
  refine ⟨?_, rfl, by norm_num⟩
  simp [updateBook, createBook, applyNumField, max_500_zero]

/-- Claim C8 (corrected): `updateBook` performs no physical-maximum
validation: a height update above 265mm is stored on the target book rather
than rejected (the only transformation applied is the clamp at 0). -/
theorem c8_amended (books : List BookSettings) (idv : ℕ) (v : ℚ)
    (hv : 0 ≤ v) (hmax : 265 < v) :
    List.Forall₂ (fun b b2 => b.id = idv → b2.height = v) books
      (updateBook idv NumField.height (some v) books) := by
  unfold updateBook
  rw [List.forall₂_map_right_iff]
  refine List.forall₂_same.mpr ?_
  intro b hb hid
  simp [hid, applyNumField, max_eq_left hv]

/-- Witness for C8: the 500mm update from the counterexample, via the amended
theorem. -/
theorem c8_amended_witness :
    List.Forall₂ (fun b b2 => b.id = 1 → b2.height = 500) [createBook 1]
      (updateBook 1 NumField.height (some 500) [createBook 1]) :=
  c8_amended [createBook 1] 1 500 (by norm_num) (by norm_num)

/-! ### Claim C10 -/

/-- Claim C10 (confirmed): a numeric `updateBook` with a non-finite parse
leaves the whole list unchanged; with a finite value `v` every non-target book
is unchanged, and on the target only the selected field changes, to
`max v 0` (so negative inputs are stored as 0). -/
theorem c10_update_semantics (books : List BookSettings) (idv : ℕ) (f : NumField) (v : ℚ) :
    updateBook idv f none books = books ∧
    List.Forall₂
      (fun b b2 =>
        (b.id ≠ idv → b2 = b) ∧
        (b.id = idv →
          getNumField f b2 = max v 0 ∧
          (∀ g : NumField, g ≠ f → getNumField g b2 = getNumField g b) ∧
          b2.id = b.id ∧ b2.color = b.color ∧ b2.title = b.title ∧ b2.isbn = b.isbn))
      books (updateBook idv f (some v) books) := by
  constructor
  · simp [updateBook]
  · unfold updateBook
    rw [List.forall₂_map_right_iff]
    refine List.forall₂_same.mpr ?_
    intro b hb
    constructor
    · intro hne
      simp [hne]
    · intro hid
      have hrw : (if b.id ≠ idv then b
          else match (some v : Option ℚ) with
            | none => b
            | some w => applyNumField f (max w 0) b) = applyNumField f (max v 0) b := by
        simp [hid]
      rw [hrw]
      refine ⟨?_, ?_, ?_, ?_, ?_, ?_⟩
      · cases f <;> simp [getNumField, applyNumField]
      · intro g hg
        cases f <;> cases g <;> simp_all [getNumField, applyNumField]
      · cases f <;> simp [applyNumField]
      · cases f <;> simp [applyNumField]
      · cases f <;> simp [applyNumField]
      · cases f <;> simp [applyNumField]

/-- Witness for C10: a non-finite parse leaves the concrete one-book list
unchanged. -/
theorem c10_update_semantics_witness :
    updateBook 1 NumField.height none [createBook 1] = [createBook 1] :=
  (c10_update_semantics [createBook 1] 1 NumField.height 500).1

/-! ### Claim C9 -/

/-- The reachable-state invariant on the book list: distinct ids and a length
within `[1, MAX_BOOKS]`. -/
def BookInv (books : List BookSettings) : Prop :=
  (books.map (fun b => b.id)).Nodup ∧ 1 ≤ books.length ∧ books.length ≤ MAX_BOOKS

/-- Claim C9 (confirmed): `addBook` is a no-op at 50 books, `removeBook` is a
no-op at one book, and add (with a fresh id), remove, and both update
operations preserve the invariant `1 ≤ length ≤ 50` (together with id
distinctness) from any reachable state. -/
theorem c9_book_count_invariant (books : List BookSettings) (nb : BookSettings) (idv : ℕ)
    (f : NumField) (g : StrField) (raw : Option ℚ) (str : String)
    (hinv : BookInv books) (hfresh : nb.id ∉ books.map (fun b => b.id)) :
    (books.length = MAX_BOOKS → addBook nb books = books) ∧
    (books.length = 1 → removeBook idv books = books) ∧
    BookInv (addBook nb books) ∧
    BookInv (removeBook idv books) ∧
    BookInv (updateBook idv f raw books) ∧
    BookInv (updateBookStr idv g str books) := by
  obtain ⟨hnd, hlo, hhi⟩ := hinv
  refine ⟨?_, ?_, ?_, ?_, ?_, ?_⟩
  · intro hlen
    simp [addBook, hlen]
  · intro hlen
    simp [removeBook, hlen]
  · by_cases hfull : MAX_BOOKS ≤ books.length
    · simp only [addBook, if_pos hfull]
      exact ⟨hnd, hlo, hhi⟩
    · simp only [addBook, if_neg hfull]
      refine ⟨?_, ?_, ?_⟩
      · rw [List.map_append, List.nodup_append]
        refine ⟨hnd, List.nodup_singleton _, ?_⟩
        intro x hx hy
        rcases List.mem_singleton.mp hy with rfl
        exact hfresh hx
      · simp
      · simp only [List.length_append, List.length_cons, List.length_nil]
        simp only [MAX_BOOKS] at hfull hhi ⊢
        omega
  · by_cases hgt : 1 < books.length
    · simp only [removeBook, if_pos hgt]
      refine ⟨filter_ne_nodup_ids books idv hnd, ?_, ?_⟩
      · by_cases hm : idv ∈ books.map (fun b => b.id)
        · have := length_filter_ne_of_mem books idv hnd hm
          omega
        · have hall : books.filter (fun b => b.id ≠ idv) = books := by
            refine List.filter_eq_self.mpr ?_
            intro x hx
            simp only [ne_eq, decide_eq_true_eq]
            intro hc
            exact hm ((List.mem_map).mpr ⟨x, hx, hc⟩)
          rw [hall]
          exact hlo
      · exact le_trans (List.length_filter_le _ _) hhi
    · simp only [removeBook, if_neg hgt]
      exact ⟨hnd, hlo, hhi⟩
  · refine ⟨?_, ?_, ?_⟩
    · rw [updateBook_map_id]
      exact hnd
    · simpa [updateBook] using hlo
    · simpa [updateBook] using hhi
  · refine ⟨?_, ?_, ?_⟩
    · rw [updateBookStr_map_id]
      exact hnd
    · simpa [updateBookStr] using hlo
    · simpa [updateBookStr] using hhi

/-- Witness for C9: adding a second (fresh-id) book to the singleton default
state keeps the invariant. -/
theorem c9_book_count_invariant_witness :
    BookInv (addBook (createBook 2) [createBook 1]) :=
  (c9_book_count_invariant [createBook 1] (createBook 2) 1 NumField.height StrField.color
    none "x" ⟨by decide, by decide, by decide⟩ (by decide)).2.2.1

/-! ### Claim C3 -/

/-- Claim C3 (confirmed): with artwork loaded, `minVerticalOffsetPercent` is
−100 when `extraHeight ≤ 0`, 100 when `0 < extraHeight ≤ topMarginPx`, and
otherwise `clamp(-100 + 200·topMarginPx/extraHeight, -100, 100)`; the vertical
translation is `-extraHeight · clampedOffsetY / 200` with the stored offset
clamped into `[minVerticalOffsetPercent, 100]`. -/
theorem c3_vertical_clamp (s : DesignerState) (himg : s.image.isSome = true) :
    (extraHeight s ≤ 0 → minVerticalOffsetPercent s = -100) ∧
    (0 < extraHeight s → extraHeight s ≤ topMarginPx → minVerticalOffsetPercent s = 100) ∧
    (topMarginPx < extraHeight s →
      minVerticalOffsetPercent s =
        clampQ (-100) 100 (-100 + 200 * topMarginPx / extraHeight s)) ∧
    translateYPx s = -(extraHeight s) * (clampQ (minVerticalOffsetPercent s) 100 s.offsetY) / 200 := by
  refine ⟨?_, ?_, ?_, ?_⟩
  · intro h
    simp [minVerticalOffsetPercent, minVerticalOffsetOf, himg, h]
  · intro h1 h2
    simp [minVerticalOffsetPercent, minVerticalOffsetOf, himg, not_le.mpr h1, h2]
  · intro h
    have h0 : ¬ extraHeight s ≤ 0 := not_le.mpr (lt_trans topMarginPx_pos h)
    simp only [minVerticalOffsetPercent, minVerticalOffsetOf, himg, Bool.true_eq_false,
      if_false, h0, not_le.mpr h, if_false, clampQ]
    rw [min_max_distrib_left]
    norm_num
  · have hle : minVerticalOffsetPercent s ≤ 100 := minVerticalOffsetOf_le_100 _ _ _
    rw [translateYPx, constrainedOffsetY, clampQ, min_max_distrib_left,
      min_eq_right hle, mul_div_assoc]

/-- Witness for C3: the vertical translation identity at a concrete loaded
state. -/
theorem c3_vertical_clamp_witness :
    translateYPx
        { books := [createBook 1], image := some { width := 3300, height := 5100 },
          zoom := 100, offsetX := 0, offsetY := 40 } =
      -(extraHeight
          { books := [createBook 1], image := some { width := 3300, height := 5100 },
            zoom := 100, offsetX := 0, offsetY := 40 }) *
        (clampQ
          (minVerticalOffsetPercent
            { books := [createBook 1], image := some { width := 3300, height := 5100 },
              zoom := 100, offsetX := 0, offsetY := 40 }) 100 40) / 200 :=
  (c3_vertical_clamp
    { books := [createBook 1], image := some { width := 3300, height := 5100 },
      zoom := 100, offsetX := 0, offsetY := 40 } rfl).2.2.2

/-! ### Artwork fit lemmas shared by C1 and C2 -/

lemma targetArtworkHeightPx_pos {s : DesignerState} (hH : 0 < maxHeightMm s.books) :
    0 < targetArtworkHeightPx s := mmToPx_pos hH

lemma artworkBaseScale_eq {s : DesignerState} {img : ImageAsset} (himg : s.image = some img)
    (hw : img.width ≠ 0) (hh : img.height ≠ 0) (hH : 0 < maxHeightMm s.books) :
    artworkBaseScale s = mmToPx (maxHeightMm s.books) / img.height := by
  have ht := targetArtworkHeightPx_pos hH
  simp only [artworkBaseScale, himg]
  rw [if_neg (by simp [hw, hh]), if_neg (not_le.mpr ht)]
  rfl

lemma baseArtworkHeightPx_eq {s : DesignerState} {img : ImageAsset} (himg : s.image = some img)
    (hw : img.width ≠ 0) (hh : img.height ≠ 0) (hH : 0 < maxHeightMm s.books) :
    baseArtworkHeightPx s = mmToPx (maxHeightMm s.books) := by
  rw [baseArtworkHeightPx, himg, artworkBaseScale_eq himg hw hh hH]
  field_simp

lemma baseArtworkWidthPx_eq {s : DesignerState} {img : ImageAsset} (himg : s.image = some img)
    (hw : img.width ≠ 0) (hh : img.height ≠ 0) (hH : 0 < maxHeightMm s.books) :
    baseArtworkWidthPx s = img.width * (mmToPx (maxHeightMm s.books) / img.height) := by
  rw [baseArtworkWidthPx, himg, artworkBaseScale_eq himg hw hh hH]

lemma baseArtworkWidthPx_pos {s : DesignerState} {img : ImageAsset} (himg : s.image = some img)
    (hw : 0 < img.width) (hh : 0 < img.height) (hH : 0 < maxHeightMm s.books) :
    0 < baseArtworkWidthPx s := by
  rw [baseArtworkWidthPx_eq himg hw.ne' hh.ne' hH]
  exact mul_pos hw (div_pos (mmToPx_pos hH) hh)

lemma minimumArtworkWidthPx_eq (s : DesignerState) :
    minimumArtworkWidthPx s = mmToPx (totalWidthMm s.books) + 2 * wrapMarginPx := by
  simp only [minimumArtworkWidthPx, mmToPx, wrapMarginPx, TOTAL_WRAP_ALLOWANCE_MM,
    WRAP_MARGIN_MM]
  ring

lemma minimumArtworkHeightPx_eq (s : DesignerState) :
    minimumArtworkHeightPx s = mmToPx (maxHeightMm s.books) + topMarginPx := by
  simp only [minimumArtworkHeightPx, mmToPx, topMarginPx]
  ring

lemma minZoomRequiredScale_height_branch {s : DesignerState} {img : ImageAsset}
    (himg : s.image = some img) (hw : img.width ≠ 0) (hh : img.height ≠ 0)
    (hH : 0 < maxHeightMm s.books) :
    minZoomRequiredScale s =
      max (minimumArtworkWidthPx s / baseArtworkWidthPx s)
        (minimumArtworkHeightPx s / baseArtworkHeightPx s) := by
  have hpos : 0 < baseArtworkHeightPx s := by
    rw [baseArtworkHeightPx_eq himg hw hh hH]
    exact mmToPx_pos hH
  rw [minZoomRequiredScale, if_pos hpos]

lemma minZoomRequiredScale_pos {s : DesignerState} {img : ImageAsset}
    (himg : s.image = some img) (hw : 0 < img.width) (hh : 0 < img.height)
    (hH : 0 < maxHeightMm s.books) :
    0 < minZoomRequiredScale s := by
  rw [minZoomRequiredScale_height_branch himg hw.ne' hh.ne' hH]
  refine lt_of_lt_of_le ?_ (le_max_right _ _)
  refine div_pos ?_ ?_
  · rw [minimumArtworkHeightPx_eq]
    exact add_pos (mmToPx_pos hH) topMarginPx_pos
  · rw [baseArtworkHeightPx_eq himg hw.ne' hh.ne' hH]
    exact mmToPx_pos hH

lemma minZoomPercent_eq {s : DesignerState} {img : ImageAsset} (himg : s.image = some img)
    (hw : 0 < img.width) (hh : 0 < img.height) (hH : 0 < maxHeightMm s.books) :
    minZoomPercent s = ((min (max (⌈minZoomRequiredScale s * 100⌉) 50) 200 : ℤ) : ℚ) := by
  rw [minZoomPercent, himg]
  rw [if_neg (baseArtworkWidthPx_pos himg hw hh hH).ne',
    if_neg (not_le.mpr (minZoomRequiredScale_pos himg hw hh hH))]

/-! ### Claim C2 -/

/-- Claim C2 (confirmed): with artwork of positive pixel dimensions and a
stack of positive height, `minZoomPercent` equals
`ceil(100 * max((stackWpx + 2*wrapMarginPx)/baseWpx, (stackHpx + topMarginPx)/baseHpx))`
clamped into `[50, 200]`, with `baseHpx = stackHpx` and
`baseWpx = pixelWidth * (stackHpx / pixelHeight)`. -/
theorem c2_min_zoom (s : DesignerState) (img : ImageAsset) (himg : s.image = some img)
    (hw : 0 < img.width) (hh : 0 < img.height) (hH : 0 < maxHeightMm s.books) :
    minZoomPercent s =
      minZoomPercentSpec img.width img.height
        (mmToPx (totalWidthMm s.books)) (mmToPx (maxHeightMm s.books)) := by
  rw [minZoomPercent_eq himg hw hh hH, minZoomPercentSpec]
  have harg : minZoomRequiredScale s * 100 =
      100 * max ((mmToPx (totalWidthMm s.books) + 2 * wrapMarginPx) /
          (img.width * (mmToPx (maxHeightMm s.books) / img.height)))
        ((mmToPx (maxHeightMm s.books) + topMarginPx) / mmToPx (maxHeightMm s.books)) := by
    rw [minZoomRequiredScale_height_branch himg hw.ne' hh.ne' hH,
      minimumArtworkWidthPx_eq, minimumArtworkHeightPx_eq,
      baseArtworkWidthPx_eq himg hw.ne' hh.ne' hH,
      baseArtworkHeightPx_eq himg hw.ne' hh.ne' hH]
    ring
  rw [harg]

/-- Witness for C2 at the default single book with 3300×5100 artwork. -/
theorem c2_min_zoom_witness :
    minZoomPercent
        { books := [createBook 1], image := some { width := 3300, height := 5100 },
          zoom := 100, offsetX := 0, offsetY := 0 } =
      minZoomPercentSpec 3300 5100
        (mmToPx (totalWidthMm [createBook 1])) (mmToPx (maxHeightMm [createBook 1])) :=
  c2_min_zoom
    { books := [createBook 1], image := some { width := 3300, height := 5100 },
      zoom := 100, offsetX := 0, offsetY := 0 }
    { width := 3300, height := 5100 } rfl (by norm_num) (by norm_num)
    (by norm_num [maxHeightMm, createBook, max_eq_right])

/-! ### Claim C1 -/

/-- The concrete state refuting claim C1: a 10×10000px (extremely tall and
narrow) artwork over the default single book.  The required zoom is far above
200, so `minZoomPercent` silently clamps to 200 and the wrap margin is lost. -/
def c1CexState : DesignerState :=
  { books := [createBook 1], image := some { width := 10, height := 10000 },
    zoom := 200, offsetX := 0, offsetY := 0 }

/-- Claim C1 (counterexample): at `zoomPercent = minZoomPercent` (= 200 after
clamping) and `offsetXPercent = 0`, the displayed artwork falls short of the
stack edges by ≈ 55.9px instead of overhanging by `wrapMarginPx` ≈ 75.6px. -/
theorem c1_counterexample :
    c1CexState.zoom = minZoomPercent c1CexState ∧
    -100 ≤ c1CexState.offsetX ∧ c1CexState.offsetX ≤ 100 ∧
    ¬ wrapMarginPx ≤
        (artworkDisplayWidth c1CexState - totalWidthPx c1CexState) / 2 -
          |translateXPx c1CexState| := by
  have hW : totalWidthMm c1CexState.books = 30 := by
    norm_num [c1CexState, totalWidthMm, createBook, BOOK_GAP_MM, max_eq_left]
  have hH : maxHeightMm c1CexState.books = 210 := by
    norm_num [c1CexState, maxHeightMm, createBook, max_eq_right]
  have hscale : artworkBaseScale c1CexState = 210 * MM_TO_PX / 10000 := by
    rw [@artworkBaseScale_eq c1CexState { width := 10, height := 10000 } rfl (by norm_num)
      (by norm_num) (by rw [hH]; norm_num), hH]
    norm_num [mmToPx]
  have hbaseW : baseArtworkWidthPx c1CexState = 2100 * MM_TO_PX / 10000 := by
    rw [baseArtworkWidthPx, show c1CexState.image = some { width := 10, height := 10000 }
      from rfl, hscale]
    ring
  have hbaseH : baseArtworkHeightPx c1CexState = 210 * MM_TO_PX := by
    rw [baseArtworkHeightPx, show c1CexState.image = some { width := 10, height := 10000 }
      from rfl, hscale]
    norm_num [MM_TO_PX]
  have hminW : minimumArtworkWidthPx c1CexState = 70 * MM_TO_PX := by
    rw [minimumArtworkWidthPx, hW]
    norm_num [mmToPx, TOTAL_WRAP_ALLOWANCE_MM, WRAP_MARGIN_MM]
  have hminH : minimumArtworkHeightPx c1CexState = 212 * MM_TO_PX := by
    rw [minimumArtworkHeightPx, hH]
    norm_num [mmToPx, TOP_MARGIN_MM]
  have hms : minZoomRequiredScale c1CexState = 1000 / 3 := by
    rw [minZoomRequiredScale, hbaseW, hbaseH, hminW, hminH, if_pos (by norm_num [MM_TO_PX])]
    rw [max_eq_left (by norm_num [MM_TO_PX])]
    norm_num [MM_TO_PX]
  have hc : (⌈(1000 : ℚ) / 3 * 100⌉ : ℤ) = 33334 := by
    rw [show (1000 : ℚ) / 3 * 100 = 100000 / 3 by norm_num, Int.ceil_eq_iff]
    norm_num
  have hzoom : minZoomPercent c1CexState = 200 := by
    rw [@minZoomPercent_eq c1CexState { width := 10, height := 10000 } rfl (by norm_num)
      (by norm_num) (by rw [hH]; norm_num), hms, hc,
      max_eq_left (by norm_num), min_eq_right (by norm_num)]
    norm_num
  have hdispW : artworkDisplayWidth c1CexState = 4200 * MM_TO_PX / 10000 := by
    rw [artworkDisplayWidth, hbaseW, zoomScale, show c1CexState.zoom = 200 from rfl]
    ring
  have htotW : totalWidthPx c1CexState = 30 * MM_TO_PX := by
    rw [totalWidthPx, hW]
    rw [max_eq_left (by norm_num [mmToPx, MM_TO_PX])]
    rfl
  have htx : translateXPx c1CexState = 0 := by
    rw [translateXPx, show c1CexState.offsetX = 0 from rfl]
    norm_num
  refine ⟨hzoom.symm, by norm_num [c1CexState], by norm_num [c1CexState], ?_⟩
  rw [hdispW, htotW, htx, abs_zero]
  norm_num [wrapMarginPx, mmToPx, WRAP_MARGIN_MM, MM_TO_PX]

/-- Claim C1 (corrected): whenever the required zoom is *not* clamped away at
the top (`ceil(100·minScale) ≤ 200`), then at `zoomPercent = minZoomPercent`
and any `offsetXPercent ∈ [-100, 100]`, the displayed artwork overhangs both
stack edges by at least `wrapMarginPx`:
`(artworkDisplayWidth - totalWidthPx)/2 - |translateXPx| ≥ wrapMarginPx`.
(The hypotheses also require positive artwork pixel dimensions, a stack of
positive height, and a stack at least one pixel wide.) -/
theorem c1_amended (s : DesignerState) (img : ImageAsset) (himg : s.image = some img)
    (hw : 0 < img.width) (hh : 0 < img.height) (hH : 0 < maxHeightMm s.books)
    (hWpx : 1 ≤ mmToPx (totalWidthMm s.books))
    (hclamp : ⌈minZoomRequiredScale s * 100⌉ ≤ 200)
    (hz : s.zoom = minZoomPercent s)
    (hx1 : -100 ≤ s.offsetX) (hx2 : s.offsetX ≤ 100) :
    wrapMarginPx ≤ (artworkDisplayWidth s - totalWidthPx s) / 2 - |translateXPx s| := by
  have hbaseWpos : 0 < baseArtworkWidthPx s := baseArtworkWidthPx_pos himg hw hh hH
  have hzval : s.zoom = ((max (⌈minZoomRequiredScale s * 100⌉) 50 : ℤ) : ℚ) := by
    rw [hz, minZoomPercent_eq himg hw hh hH, min_eq_left (by omega)]
  have hz_ge : minZoomRequiredScale s * 100 ≤ s.zoom := by
    rw [hzval]
    calc minZoomRequiredScale s * 100 ≤ ((⌈minZoomRequiredScale s * 100⌉ : ℤ) : ℚ) :=
          Int.le_ceil _
      _ ≤ ((max (⌈minZoomRequiredScale s * 100⌉) 50 : ℤ) : ℚ) := by
          exact_mod_cast le_max_left _ _
  have hmsW : minimumArtworkWidthPx s / baseArtworkWidthPx s ≤ minZoomRequiredScale s := by
    rw [minZoomRequiredScale_height_branch himg hw.ne' hh.ne' hH]
    exact le_max_left _ _
  have hdispW : minimumArtworkWidthPx s ≤ artworkDisplayWidth s := by
    rw [artworkDisplayWidth, zoomScale]
    have h1 : minimumArtworkWidthPx s / baseArtworkWidthPx s * 100 ≤ s.zoom :=
      le_trans (by nlinarith [hmsW]) hz_ge
    have h2 : minimumArtworkWidthPx s / baseArtworkWidthPx s ≤ s.zoom / 100 := by
      linarith
    calc minimumArtworkWidthPx s
        = baseArtworkWidthPx s * (minimumArtworkWidthPx s / baseArtworkWidthPx s) := by
          field_simp
      _ ≤ baseArtworkWidthPx s * (s.zoom / 100) := by
          exact mul_le_mul_of_nonneg_left h2 (le_of_lt hbaseWpos)
  have htotW : totalWidthPx s = mmToPx (totalWidthMm s.books) :=
    max_eq_left hWpx
  have hE : 2 * wrapMarginPx ≤ artworkDisplayWidth s - totalWidthPx s := by
    have := minimumArtworkWidthPx_eq s
    rw [htotW]
    linarith [hdispW]
  have hEx : extraWidth s = artworkDisplayWidth s - totalWidthPx s := by
    rw [extraWidth]
    exact max_eq_left (by linarith [wrapMarginPx_pos])
  have hshift : maxHorizontalShiftPx s = extraWidth s / 2 - wrapMarginPx := by
    rw [maxHorizontalShiftPx]
    refine max_eq_left ?_
    rw [hEx]
    linarith
  have hshift_nonneg : 0 ≤ maxHorizontalShiftPx s := by
    rw [hshift, hEx]
    linarith
  have habs : |translateXPx s| ≤ maxHorizontalShiftPx s := by
    rw [translateXPx, abs_mul, abs_of_nonneg hshift_nonneg, abs_div]
    have hxabs : |s.offsetX| ≤ 100 := abs_le.mpr ⟨hx1, hx2⟩
    have h100 : |(100 : ℚ)| = 100 := by norm_num
    rw [h100]
    nlinarith [abs_nonneg s.offsetX, hshift_nonneg]
  have : wrapMarginPx ≤ extraWidth s / 2 - |translateXPx s| := by
    rw [hshift] at habs
    linarith
  rw [hEx] at this
  exact this

/-- The concrete state witnessing the corrected C1: default book, 3300×5100
artwork, zoom at the derived minimum 101, offset fully panned right. -/
def c1OkState : DesignerState :=
  { books := [createBook 1], image := some { width := 3300, height := 5100 },
    zoom := 101, offsetX := 100, offsetY := 0 }

/-- Witness for C1: the amended wrap-margin bound at `c1OkState`. -/
theorem c1_amended_witness :
    wrapMarginPx ≤
      (artworkDisplayWidth c1OkState - totalWidthPx c1OkState) / 2 -
        |translateXPx c1OkState| := by
  have hH : maxHeightMm c1OkState.books = 210 := by
    norm_num [c1OkState, maxHeightMm, createBook, max_eq_right]
  have hW : totalWidthMm c1OkState.books = 30 := by
    norm_num [c1OkState, totalWidthMm, createBook, BOOK_GAP_MM, max_eq_left]
  have hscale : artworkBaseScale c1OkState = 210 * MM_TO_PX / 5100 := by
    rw [@artworkBaseScale_eq c1OkState { width := 3300, height := 5100 } rfl (by norm_num)
      (by norm_num) (by rw [hH]; norm_num), hH]
    norm_num [mmToPx]
  have hbaseW : baseArtworkWidthPx c1OkState = 3300 * (210 * MM_TO_PX / 5100) := by
    rw [baseArtworkWidthPx, show c1OkState.image = some { width := 3300, height := 5100 }
      from rfl, hscale]
  have hbaseH : baseArtworkHeightPx c1OkState = 210 * MM_TO_PX := by
    rw [baseArtworkHeightPx, show c1OkState.image = some { width := 3300, height := 5100 }
      from rfl, hscale]
    norm_num [MM_TO_PX]
  have hminW : minimumArtworkWidthPx c1OkState = 70 * MM_TO_PX := by
    rw [minimumArtworkWidthPx, hW]
    norm_num [mmToPx, TOTAL_WRAP_ALLOWANCE_MM, WRAP_MARGIN_MM]
  have hminH : minimumArtworkHeightPx c1OkState = 212 * MM_TO_PX := by
    rw [minimumArtworkHeightPx, hH]
    norm_num [mmToPx, TOP_MARGIN_MM]
  have hms : minZoomRequiredScale c1OkState = 106 / 105 := by
    rw [minZoomRequiredScale, hbaseW, hbaseH, hminW, hminH, if_pos (by norm_num [MM_TO_PX])]
    rw [max_eq_right (by norm_num [MM_TO_PX])]
    norm_num [MM_TO_PX]
  have hc : (⌈(106 : ℚ) / 105 * 100⌉ : ℤ) = 101 := by
    rw [show (106 : ℚ) / 105 * 100 = 2120 / 21 by norm_num, Int.ceil_eq_iff]
    norm_num
  have hclamp : ⌈minZoomRequiredScale c1OkState * 100⌉ ≤ 200 := by
    rw [hms, hc]
    norm_num
  have hzoom : c1OkState.zoom = minZoomPercent c1OkState := by
    rw [@minZoomPercent_eq c1OkState { width := 3300, height := 5100 } rfl (by norm_num)
      (by norm_num) (by rw [hH]; norm_num), hms, hc,
      max_eq_left (by norm_num), min_eq_left (by norm_num)]
    norm_num [c1OkState]
  exact c1_amended c1OkState { width := 3300, height := 5100 } rfl (by norm_num)
    (by norm_num) (by rw [hH]; norm_num)
    (by rw [hW]; norm_num [mmToPx, MM_TO_PX]) hclamp hzoom
    (by norm_num [c1OkState]) (by norm_num [c1OkState])

/-! ### Claim C6 -/

lemma centersMmAux_length (r : ℚ) (l : List BookSettings) :
    (centersMmAux r l).length = l.length := by
  induction l generalizing r with
  | nil => rfl
  | cons b rest ih => simp [centersMmAux, ih]

lemma centersPx_eq_map (r : ℚ) (l : List BookSettings) :
    centersPxAux (mmToPx r) l = (centersMmAux r l).map mmToPx := by
  induction l generalizing r with
  | nil => rfl
  | cons b rest ih =>
      simp only [centersPxAux, centersMmAux, List.map_cons]
      have h1 : mmToPx r + mmToPx b.spineWidth / 2 = mmToPx (r + b.spineWidth / 2) := by
        simp only [mmToPx]
        ring
      have h2 : centersPxAux
            (mmToPx r + mmToPx b.spineWidth + (if rest.isEmpty then 0 else mmToPx BOOK_GAP_MM))
            rest =
          (centersMmAux (r + b.spineWidth + (if rest.isEmpty then 0 else BOOK_GAP_MM)) rest).map
            mmToPx := by
        rw [← ih]
        congr 1
        by_cases hre : rest.isEmpty <;> simp [hre, mmToPx] <;> ring
      rw [h1, h2]

lemma bookCentersPx_eq (books : List BookSettings) :
    bookCentersPx books = (bookCentersMm books).map mmToPx := by
  calc centersPxAux 0 books = centersPxAux (mmToPx 0) books := by norm_num [mmToPx]
    _ = (centersMmAux 0 books).map mmToPx := centersPx_eq_map 0 books

lemma map_zip_snd {α β γ : Type} (f : β → γ) :
    ∀ (l1 : List α) (l2 : List β), l1.length = l2.length →
      (l1.zip l2).map (fun p => f p.2) = l2.map f := by
  intro l1
  induction l1 with
  | nil =>
      intro l2 h
      cases l2 with
      | nil => rfl
      | cons b t => simp at h
  | cons a t ih =>
      intro l2 h
      cases l2 with
      | nil => simp at h
      | cons b t2 =>
          simp only [List.zip_cons_cons, List.map_cons]
          rw [ih t2 (by simpa using h)]

lemma pdfPages_length (s : DesignerState) : (pdfPages s).length = s.books.length := by
  simp [pdfPages, bookCentersMm, centersMmAux_length]

/-- Claim C6 (confirmed): the proof compositor yields exactly one page per
book; removing one book removes exactly one page; and each page places the
shared artwork at the preview's horizontal translation plus
`centerShift = stackWidth/2 - center_i` — the revision A millimetre pages and
the revision B pixel placement agree exactly. -/
theorem c6_proof_pages (s : DesignerState) (idv : ℕ)
    (hWpx : 1 ≤ mmToPx (totalWidthMm s.books))
    (hlen : 1 < s.books.length)
    (hmem : idv ∈ s.books.map (fun b => b.id))
    (hnd : (s.books.map (fun b => b.id)).Nodup) :
    (pdfPages s).length = s.books.length ∧
    (pdfPages { s with books := removeBook idv s.books }).length = s.books.length - 1 ∧
    (pdfPages s).map
        (fun p => p.imageLeftMm + artworkDisplayWidthMm s / 2 - PAGE_WIDTH_MM_A / 2) =
      (bookCentersPx s.books).map (fun c => artworkShiftXPx s c / MM_TO_PX) := by
  refine ⟨pdfPages_length s, ?_, ?_⟩
  · rw [pdfPages_length]
    show (removeBook idv s.books).length = s.books.length - 1
    rw [removeBook, if_pos hlen]
    have := length_filter_ne_of_mem s.books idv hnd hmem
    omega
  · have hL : (pdfPages s).map
        (fun p => p.imageLeftMm + artworkDisplayWidthMm s / 2 - PAGE_WIDTH_MM_A / 2) =
        (bookCentersMm s.books).map
          (fun c => PAGE_WIDTH_MM_A / 2 - c + imageLeftInPreviewMm s +
            artworkDisplayWidthMm s / 2 - PAGE_WIDTH_MM_A / 2) := by
      rw [pdfPages, List.map_map]
      exact map_zip_snd
        (fun c => PAGE_WIDTH_MM_A / 2 - c + imageLeftInPreviewMm s +
          artworkDisplayWidthMm s / 2 - PAGE_WIDTH_MM_A / 2)
        s.books (bookCentersMm s.books) ((centersMmAux_length 0 s.books).symm)
    rw [hL, bookCentersPx_eq, List.map_map]
    have hk : MM_TO_PX ≠ 0 := by norm_num [MM_TO_PX]
    have htotW : totalWidthPx s = mmToPx (totalWidthMm s.books) := max_eq_left hWpx
    have hfun : (fun c => PAGE_WIDTH_MM_A / 2 - c + imageLeftInPreviewMm s +
          artworkDisplayWidthMm s / 2 - PAGE_WIDTH_MM_A / 2) =
        (fun c => artworkShiftXPx s c / MM_TO_PX) ∘ mmToPx := by
      funext c
      simp only [Function.comp, artworkShiftXPx, imageLeftInPreviewMm, artworkDisplayWidthMm,
        htotW, mmToPx]
      field_simp
      ring
    rw [hfun]

/-- The concrete two-book state used as the C6 witness. -/
def c6State : DesignerState :=
  { books := [createBook 1, { createBook 2 with spineWidth := 40 }],
    image := some { width := 3300, height := 5100 }, zoom := 120, offsetX := 37, offsetY := 0 }

/-- Witness for C6: one page per book at the concrete two-book state. -/
theorem c6_proof_pages_witness : (pdfPages c6State).length = c6State.books.length :=
  (c6_proof_pages c6State 1
    (by norm_num [c6State, totalWidthMm, createBook, BOOK_GAP_MM, max_eq_left, mmToPx, MM_TO_PX])
    (by simp [c6State])
    (by simp [c6State, createBook])
    (by simp [c6State, createBook])).1

/-! ### Claim C7: the text autofit engine (revision B)

The browser measurement surface is abstracted as a `TextMeasure` oracle
(`scrollWidth`, `scrollHeight` and the counted line fragments at a candidate
font size); the `fits` closure, the binary-search loop and the final
`overflowed` computation are translated from the `useLayoutEffect` autofit
blocks.  The `while (low <= high)` loop is embedded with a fuel argument that
`autofitSearch` instantiates with the size of the initial interval. -/

/-- The hidden measurement surface: content width/height and rendered line
count at a candidate font size. -/
structure TextMeasure where
  scrollWidthAt : ℤ → ℚ
  scrollHeightAt : ℤ → ℚ
  lineCountAt : ℤ → ℕ

/-- The autofit configuration (target box, size bounds, line limits). -/
structure AutofitParams where
  targetWidth : ℚ
  targetHeight : ℚ
  minFontSizePx : ℤ
  defaultFontSizePx : ℤ
  maxLines : ℕ
  lineHeightMult : ℚ

/-- The `fits(size)` closure: width must not exceed the target width (+0.5px
slack), height must not exceed `min(targetHeight, size·mult·maxLines)` (+0.5px
slack), and the counted lines must not exceed `maxLines`. -/
def fitsAt (m : TextMeasure) (p : AutofitParams) (size : ℤ) : Bool :=
  if p.targetWidth + 1 / 2 < m.scrollWidthAt size then false
  else if min p.targetHeight ((size : ℚ) * p.lineHeightMult * (p.maxLines : ℚ)) + 1 / 2 <
      m.scrollHeightAt size then false
  else decide (m.lineCountAt size ≤ p.maxLines)

/-- The `while (low <= high)` binary-search loop with explicit fuel:
`mid = floor((low + high) / 2)`; on a fit the best candidate moves up
(`low = mid + 1`), otherwise `high = mid - 1`. -/
def autofitGo (fits : ℤ → Bool) : ℕ → ℤ → ℤ → Option ℤ
  | 0, _, _ => none
  | fuel + 1, low, high =>
      if low ≤ high then
        if fits ((low + high) / 2) then
          match autofitGo fits fuel ((low + high) / 2 + 1) high with
          | some b => some b
          | none => some ((low + high) / 2)
        else autofitGo fits fuel low ((low + high) / 2 - 1)
      else none

/-- The binary search over `[low, high]`, run with enough fuel for the whole
interval; returns the best (largest) fitting size found, if any. -/
def autofitSearch (fits : ℤ → Bool) (low high : ℤ) : Option ℤ :=
  autofitGo fits (high + 1 - low).toNat low high

/-- `(finalSize, found)`: the default size short-circuits the search;
otherwise the loop searches `[minFontSizePx, max(minFontSizePx, default - 1)]`
and falls back to `minFontSizePx` when nothing fits. -/
def autofitRun (m : TextMeasure) (p : AutofitParams) : ℤ × Bool :=
  if fitsAt m p p.defaultFontSizePx then (p.defaultFontSizePx, true)
  else
    match autofitSearch (fitsAt m p) p.minFontSizePx
        (max p.minFontSizePx (p.defaultFontSizePx - 1)) with
    | some b => (b, true)
    | none => (p.minFontSizePx, false)

/-- The published text layout, including the lenient final `overflowed`
re-measurement at the chosen size. -/
structure TextLayoutResult where
  fontSizePx : ℤ
  lineHeightPx : ℚ
  lineCount : ℕ
  overflowed : Bool

/-- The layout assembled after the search: `overflowed = !found ||
finalHeight > min(targetHeight, lineHeight·maxLines) + 0.5 || lines > maxLines`. -/
def autofitLayout (m : TextMeasure) (p : AutofitParams) : TextLayoutResult :=
  { fontSizePx := (autofitRun m p).1
    lineHeightPx := ((autofitRun m p).1 : ℚ) * p.lineHeightMult
    lineCount := m.lineCountAt (autofitRun m p).1
    overflowed :=
      !(autofitRun m p).2 ||
        decide (min p.targetHeight
            (((autofitRun m p).1 : ℚ) * p.lineHeightMult * (p.maxLines : ℚ)) + 1 / 2 <
          m.scrollHeightAt (autofitRun m p).1) ||
        decide (p.maxLines < m.lineCountAt (autofitRun m p).1) }

/-- A fits-predicate is monotone when every size below a fitting size fits. -/
def MonoFits (fits : ℤ → Bool) : Prop :=
  ∀ a b : ℤ, a ≤ b → fits b = true → fits a = true

lemma autofitGo_spec (fits : ℤ → Bool) (hm : MonoFits fits) :
    ∀ (fuel : ℕ) (low high : ℤ), (high + 1 - low).toNat ≤ fuel →
      (autofitGo fits fuel low high = none →
        ∀ k : ℤ, low ≤ k → k ≤ high → fits k = false) ∧
      (∀ b : ℤ, autofitGo fits fuel low high = some b →
        fits b = true ∧ low ≤ b ∧ b ≤ high ∧
          ∀ k : ℤ, low ≤ k → k ≤ high → fits k = true → k ≤ b) := by
  intro fuel
  induction fuel with
  | zero =>
      intro low high hfuel
      have hlh : high < low := by omega
      constructor
      · intro _ k hk1 hk2
        exact absurd (hk1.trans hk2) (not_le.mpr hlh)
      · intro b hb
        simp [autofitGo] at hb
  | succ n ih =>
      intro low high hfuel
      by_cases hlh : low ≤ high
      · have hmid1 : low ≤ (low + high) / 2 := by omega
        have hmid2 : (low + high) / 2 ≤ high := by omega
        obtain ⟨ihn1, ihs1⟩ := ih ((low + high) / 2 + 1) high (by omega)
        obtain ⟨ihn2, ihs2⟩ := ih low ((low + high) / 2 - 1) (by omega)
        by_cases hfit : fits ((low + high) / 2) = true
        · constructor
          · intro hnone
            exfalso
            cases hrec : autofitGo fits n ((low + high) / 2 + 1) high with
            | some b => simp [autofitGo, hlh, hfit, hrec] at hnone
            | none => simp [autofitGo, hlh, hfit, hrec] at hnone
          · intro b hb
            simp only [autofitGo, if_pos hlh, hfit, if_true] at hb
            cases hrec : autofitGo fits n ((low + high) / 2 + 1) high with
            | some b2 =>
                rw [hrec] at hb
                simp only [Option.some.injEq] at hb
                subst hb
                obtain ⟨hf, h1, h2, hmax⟩ := ihs1 b2 hrec
                refine ⟨hf, by omega, h2, ?_⟩
                intro k hk1 hk2 hfk
                by_cases hkmid : k ≤ (low + high) / 2
                · omega
                · exact hmax k (by omega) hk2 hfk
            | none =>
                rw [hrec] at hb
                simp only [Option.some.injEq] at hb
                subst hb
                refine ⟨hfit, hmid1, hmid2, ?_⟩
                intro k hk1 hk2 hfk
                by_cases hkmid : k ≤ (low + high) / 2
                · exact hkmid
                · exfalso
                  have := ihn1 hrec k (by omega) hk2
                  rw [hfk] at this
                  exact absurd this (by simp)
        · have hfitf : fits ((low + high) / 2) = false := by
            cases h : fits ((low + high) / 2) with
            | true => exact absurd h hfit
            | false => rfl
          constructor
          · intro hnone k hk1 hk2
            have hrec : autofitGo fits n low ((low + high) / 2 - 1) = none := by
              simpa [autofitGo, hlh, hfitf] using hnone
            by_cases hkmid : k ≤ (low + high) / 2 - 1
            · exact ihn2 hrec k hk1 hkmid
            · cases hfk : fits k with
              | false => rfl
              | true =>
                  have hcontra : fits ((low + high) / 2) = true := hm _ _ (by omega) hfk
                  rw [hfitf] at hcontra
                  exact absurd hcontra (by simp)
          · intro b hb
            have hrec : autofitGo fits n low ((low + high) / 2 - 1) = some b := by
              simpa [autofitGo, hlh, hfitf] using hb
            obtain ⟨hf, h1, h2, hmax⟩ := ihs2 b hrec
            refine ⟨hf, h1, by omega, ?_⟩
            intro k hk1 hk2 hfk
            by_cases hkmid : k ≤ (low + high) / 2 - 1
            · exact hmax k hk1 hkmid hfk
            · exfalso
              have hcontra : fits ((low + high) / 2) = true := hm _ _ (by omega) hfk
              rw [hfitf] at hcontra
              exact absurd hcontra (by simp)
      · constructor
        · intro _ k hk1 hk2
          exact absurd (hk1.trans hk2) hlh
        · intro b hb
          simp [autofitGo, hlh] at hb

lemma autofitSearch_spec (fits : ℤ → Bool) (hm : MonoFits fits) (low high : ℤ) :
    (autofitSearch fits low high = none →
      ∀ k : ℤ, low ≤ k → k ≤ high → fits k = false) ∧
    (∀ b : ℤ, autofitSearch fits low high = some b →
      fits b = true ∧ low ≤ b ∧ b ≤ high ∧
        ∀ k : ℤ, low ≤ k → k ≤ high → fits k = true → k ≤ b) :=
  autofitGo_spec fits hm (high + 1 - low).toNat low high (le_refl _)

/-- Claim C7 (confirmed): with a monotone fits-oracle and
`minFontSizePx < defaultFontSizePx`: a fitting default size is returned
unchanged; if nothing in `[min, default-1]` fits the result is
`minFontSizePx` with `overflowed = true`; if something fits the result is the
largest fitting size in `[min, default-1]`; the returned size is never below
`minFontSizePx`; and `overflowed = false` forces `lineCount ≤ maxLines`. -/
theorem c7_autofit (m : TextMeasure) (p : AutofitParams)
    (hm : MonoFits (fitsAt m p))
    (hlt : p.minFontSizePx < p.defaultFontSizePx) :
    (fitsAt m p p.defaultFontSizePx = true →
      (autofitLayout m p).fontSizePx = p.defaultFontSizePx) ∧
    (fitsAt m p p.defaultFontSizePx = false →
      (∀ k : ℤ, p.minFontSizePx ≤ k → k ≤ p.defaultFontSizePx - 1 → fitsAt m p k = false) →
      (autofitLayout m p).fontSizePx = p.minFontSizePx ∧
        (autofitLayout m p).overflowed = true) ∧
    (fitsAt m p p.defaultFontSizePx = false →
      ∀ j : ℤ, p.minFontSizePx ≤ j → j ≤ p.defaultFontSizePx - 1 → fitsAt m p j = true →
        fitsAt m p (autofitLayout m p).fontSizePx = true ∧
        p.minFontSizePx ≤ (autofitLayout m p).fontSizePx ∧
        (autofitLayout m p).fontSizePx ≤ p.defaultFontSizePx - 1 ∧
        ∀ k : ℤ, p.minFontSizePx ≤ k → k ≤ p.defaultFontSizePx - 1 → fitsAt m p k = true →
          k ≤ (autofitLayout m p).fontSizePx) ∧
    p.minFontSizePx ≤ (autofitLayout m p).fontSizePx ∧
    ((autofitLayout m p).overflowed = false →
      (autofitLayout m p).lineCount ≤ p.maxLines) := by
  have hhigh : max p.minFontSizePx (p.defaultFontSizePx - 1) = p.defaultFontSizePx - 1 :=
    max_eq_right (by omega)
  obtain ⟨hspec_none, hspec_some⟩ :=
    autofitSearch_spec (fitsAt m p) hm p.minFontSizePx (p.defaultFontSizePx - 1)
  refine ⟨?_, ?_, ?_, ?_, ?_⟩
  · intro h
    simp [autofitLayout, autofitRun, h]
  · intro hd hnone
    have hsearch : autofitSearch (fitsAt m p) p.minFontSizePx
        (max p.minFontSizePx (p.defaultFontSizePx - 1)) = none := by
      rw [hhigh]
      cases hs : autofitSearch (fitsAt m p) p.minFontSizePx (p.defaultFontSizePx - 1) with
      | none => rfl
      | some b =>
          obtain ⟨hf, h1, h2, _⟩ := hspec_some b hs
          rw [hnone b h1 h2] at hf
          exact absurd hf (by simp)
    constructor
    · simp [autofitLayout, autofitRun, hd, hsearch]
    · simp [autofitLayout, autofitRun, hd, hsearch]
  · intro hd j hj1 hj2 hfj
    cases hs : autofitSearch (fitsAt m p) p.minFontSizePx (p.defaultFontSizePx - 1) with
    | none =>
        rw [hspec_none hs j hj1 hj2] at hfj
        exact absurd hfj (by simp)
    | some b =>
        obtain ⟨hf, h1, h2, hmax⟩ := hspec_some b hs
        have hfs : (autofitLayout m p).fontSizePx = b := by
          simp [autofitLayout, autofitRun, hd, hhigh, hs]
        rw [hfs]
        exact ⟨hf, h1, h2, hmax⟩
  · by_cases hd : fitsAt m p p.defaultFontSizePx = true
    · have : (autofitLayout m p).fontSizePx = p.defaultFontSizePx := by
        simp [autofitLayout, autofitRun, hd]
      omega
    · have hdf : fitsAt m p p.defaultFontSizePx = false := by
        cases h : fitsAt m p p.defaultFontSizePx with
        | true => exact absurd h hd
        | false => rfl
      cases hs : autofitSearch (fitsAt m p) p.minFontSizePx (p.defaultFontSizePx - 1) with
      | none =>
          have : (autofitLayout m p).fontSizePx = p.minFontSizePx := by
            simp [autofitLayout, autofitRun, hdf, hhigh, hs]
          omega
      | some b =>
          obtain ⟨_, h1, _, _⟩ := hspec_some b hs
          have : (autofitLayout m p).fontSizePx = b := by
            simp [autofitLayout, autofitRun, hdf, hhigh, hs]
          omega
  · intro hov
    simp only [autofitLayout, Bool.or_eq_false_iff] at hov
    have := hov.2
    simp only [decide_eq_false_iff_not, not_lt] at this
    simpa [autofitLayout] using this

/-- A concrete monotone measurement oracle for the C7 witness: width grows
linearly with the font size, height and line count are trivial. -/
def c7Measure : TextMeasure :=
  { scrollWidthAt := fun s => (s : ℚ) * 10
    scrollHeightAt := fun _ => 0
    lineCountAt := fun _ => 1 }

/-- Autofit parameters for the C7 witness (a 500px-wide box). -/
def c7Params : AutofitParams :=
  { targetWidth := 500, targetHeight := 100, minFontSizePx := 16, defaultFontSizePx := 72,
    maxLines := 3, lineHeightMult := 0 }

lemma c7_mono : MonoFits (fitsAt c7Measure c7Params) := by
  intro a b hab hb
  simp only [fitsAt, c7Measure, c7Params] at hb ⊢
  by_cases hcb : (500 : ℚ) + 1 / 2 < (b : ℚ) * 10
  · rw [if_pos hcb] at hb
    exact absurd hb (by simp)
  · have hca : ¬ (500 : ℚ) + 1 / 2 < (a : ℚ) * 10 := by
      have hc : (a : ℚ) ≤ (b : ℚ) := by exact_mod_cast hab
      intro hlt
      exact hcb (by linarith)
    have h2 : ¬ min (100 : ℚ) ((a : ℚ) * 0 * ((3 : ℕ) : ℚ)) + 1 / 2 <
        (0 : ℚ) := by
      norm_num [min_eq_right]
    rw [if_neg hca, if_neg h2]
    simp

/-- Witness for C7: at the concrete oracle the returned size respects the
minimum font size. -/
theorem c7_autofit_witness :
    c7Params.minFontSizePx ≤ (autofitLayout c7Measure c7Params).fontSizePx :=
  (c7_autofit c7Measure c7Params c7_mono (by norm_num [c7Params])).2.2.2.1

end Flyleaf
